import Mathlib

set_option maxRecDepth 8000

/-
  Verification development for SDFScanMatcher (src/scripts/SDFScanMatcher.py).

  The scan matcher aligns a 2D laser scan against a signed-distance-field map
  with Gauss-Newton iterations (Cauchy-robust weighting), then fuses the scan
  into the map.  We embed the numeric program shallowly over ℚ:

  * the real-valued library operations `math.sqrt` (inside `np.linalg.norm`),
    `math.cos` and `math.sin` are abstract parameters (a `RealOps` record):
    every claim at issue is structural in them, and the embedding stays
    computable so concrete runs can be evaluated by the kernel;
  * the external `SDFMap` collaborator (imported by the source but not part of
    the repository) is an abstract record of its queried interface;
  * `np.linalg.inv` raising `LinAlgError` on a singular matrix is modelled as
    `Except.error SMError.numericalError` (exact-arithmetic singularity test);
  * an IEEE 0.0/0.0 division producing NaN (the unguarded range normalisation
    in `GetCauchyWeights`) is modelled as a failure: `Option.none`, lifted to
    `Except.error SMError.nanFault` when it occurs inside `AddScan`.
-/

namespace SDFSM

/-- A length-3 column vector over ℚ (homogeneous 2D point, Jacobian row,
or pose-increment vector `delta_P = (dx, dy, dtheta)`). -/
structure Vec3 where
  x : ℚ
  y : ℚ
  z : ℚ
deriving DecidableEq, Repr

/-- A 2x2 matrix over ℚ, rows `[[a, b], [c, d]]` (used for the
rotation-derivative matrix `dR` of the source). -/
structure Mat2 where
  a : ℚ
  b : ℚ
  c : ℚ
  d : ℚ
deriving DecidableEq, Repr

/-- A 3x3 matrix over ℚ (SE(2) pose matrices and the normal-equation
matrix of the solver). -/
structure Mat3 where
  a00 : ℚ
  a01 : ℚ
  a02 : ℚ
  a10 : ℚ
  a11 : ℚ
  a12 : ℚ
  a20 : ℚ
  a21 : ℚ
  a22 : ℚ
deriving DecidableEq, Repr

/-- The 3x3 identity matrix (`np.identity(3)`). -/
def Mat3.idm : Mat3 := ⟨1, 0, 0, 0, 1, 0, 0, 0, 1⟩

/-- 3x3 matrix product (`np.dot` on 3x3 arrays). -/
def Mat3.mul (A B : Mat3) : Mat3 :=
  ⟨A.a00 * B.a00 + A.a01 * B.a10 + A.a02 * B.a20,
   A.a00 * B.a01 + A.a01 * B.a11 + A.a02 * B.a21,
   A.a00 * B.a02 + A.a01 * B.a12 + A.a02 * B.a22,
   A.a10 * B.a00 + A.a11 * B.a10 + A.a12 * B.a20,
   A.a10 * B.a01 + A.a11 * B.a11 + A.a12 * B.a21,
   A.a10 * B.a02 + A.a11 * B.a12 + A.a12 * B.a22,
   A.a20 * B.a00 + A.a21 * B.a10 + A.a22 * B.a20,
   A.a20 * B.a01 + A.a21 * B.a11 + A.a22 * B.a21,
   A.a20 * B.a02 + A.a21 * B.a12 + A.a22 * B.a22⟩

/-- Matrix-vector product of a 3x3 matrix with a length-3 column vector. -/
def Mat3.mulVec (A : Mat3) (v : Vec3) : Vec3 :=
  ⟨A.a00 * v.x + A.a01 * v.y + A.a02 * v.z,
   A.a10 * v.x + A.a11 * v.y + A.a12 * v.z,
   A.a20 * v.x + A.a21 * v.y + A.a22 * v.z⟩

/-- Entrywise sum of 3x3 matrices. -/
def Mat3.add (A B : Mat3) : Mat3 :=
  ⟨A.a00 + B.a00, A.a01 + B.a01, A.a02 + B.a02,
   A.a10 + B.a10, A.a11 + B.a11, A.a12 + B.a12,
   A.a20 + B.a20, A.a21 + B.a21, A.a22 + B.a22⟩

/-- Scalar multiple of a 3x3 matrix. -/
def Mat3.smul (c : ℚ) (A : Mat3) : Mat3 :=
  ⟨c * A.a00, c * A.a01, c * A.a02,
   c * A.a10, c * A.a11, c * A.a12,
   c * A.a20, c * A.a21, c * A.a22⟩

/-- The all-zero 3x3 matrix. -/
def Mat3.zero : Mat3 := ⟨0, 0, 0, 0, 0, 0, 0, 0, 0⟩

/-- Determinant of a 3x3 matrix (Laplace expansion along the first row). -/
def det3 (A : Mat3) : ℚ :=
  A.a00 * (A.a11 * A.a22 - A.a12 * A.a21)
    - A.a01 * (A.a10 * A.a22 - A.a12 * A.a20)
    + A.a02 * (A.a10 * A.a21 - A.a11 * A.a20)

/-- Exact 3x3 matrix inverse by the adjugate formula; `none` when the matrix
is singular.  This models `np.linalg.inv`, which raises `LinAlgError` on a
singular input. -/
def inv3 (A : Mat3) : Option Mat3 :=
  if det3 A = 0 then none
  else
    let d := det3 A
    some ⟨(A.a11 * A.a22 - A.a12 * A.a21) / d,
          (A.a02 * A.a21 - A.a01 * A.a22) / d,
          (A.a01 * A.a12 - A.a02 * A.a11) / d,
          (A.a12 * A.a20 - A.a10 * A.a22) / d,
          (A.a00 * A.a22 - A.a02 * A.a20) / d,
          (A.a02 * A.a10 - A.a00 * A.a12) / d,
          (A.a10 * A.a21 - A.a11 * A.a20) / d,
          (A.a01 * A.a20 - A.a00 * A.a21) / d,
          (A.a00 * A.a11 - A.a01 * A.a10) / d⟩

/-- The real-valued library functions the source calls (`math.sqrt` inside
`np.linalg.norm`, `math.cos`, `math.sin`), kept abstract: the claims under
verification are structural in them, and abstracting them keeps the
embedding computable over ℚ. -/
structure RealOps where
  sqrt : ℚ → ℚ
  cos : ℚ → ℚ
  sin : ℚ → ℚ

/-- Modelled from the spec: the external `SDFMap` collaborator
(`SDFMap.py` is imported by the source but is not part of this repository).
Per spec section 6 it offers a cell size `disc` and a point query returning
the signed distance and the 2D map gradient at a point; the scan-fusion
update `UpdateMap` is modelled as a log entry on the matcher state below. -/
structure SDFMapModel where
  disc : ℚ
  query : ℚ → ℚ → ℚ × ℚ × ℚ

/-- Result record of `GetResidualAndJacobian`: residual vector `r`, stacked
Jacobian rows `J`, and the raw per-point map gradients `grads`. -/
structure RJG where
  r : List ℚ
  J : List Vec3
  grads : List (ℚ × ℚ)
deriving DecidableEq, Repr

/-- `GetResidualAndJacobian(scan, pose)` (source lines 133-164).  For each
scan point (a homogeneous row of `scan`): transform it by the pose
(`np.dot(scan, pose.T)` row), query the map for value and gradient, build
`dR` from the pose's rotation entries (`[[pose01, -pose00], [pose00, pose01]]`),
form the 2x3 sensitivity `[I2 | dR @ local_xy]` and contract it with the
gradient to get the Jacobian row. -/
def GetResidualAndJacobian (m : SDFMapModel) (scan : List Vec3) (pose : Mat3) : RJG :=
  let rows := scan.map (fun p =>
    let gx := p.x * pose.a00 + p.y * pose.a01 + p.z * pose.a02
    let gy := p.x * pose.a10 + p.y * pose.a11 + p.z * pose.a12
    let q := m.query gx gy
    let g0 := q.2.1
    let g1 := q.2.2
    let rot0 := pose.a01 * p.x + -pose.a00 * p.y
    let rot1 := pose.a00 * p.x + pose.a01 * p.y
    (q.1, Vec3.mk g0 g1 (g0 * rot0 + g1 * rot1), (g0, g1)))
  ⟨rows.map (fun t => t.1), rows.map (fun t => t.2.1), rows.map (fun t => t.2.2)⟩

/-- `np.linalg.norm(endpoint[:2])`: Euclidean range of a scan point from the
origin, using only its first two coordinates. -/
def rangeOf (ops : RealOps) (p : Vec3) : ℚ :=
  ops.sqrt (p.x ^ 2 + p.y ^ 2)

/-- The `min_range` accumulation of `GetCauchyWeights` (initialised to
`1.0e4`, updated by a strict comparison). -/
def minRange (ops : RealOps) (scan : List Vec3) : ℚ :=
  scan.foldl (fun mn p => if rangeOf ops p < mn then rangeOf ops p else mn) 10000

/-- The `max_range` accumulation of `GetCauchyWeights` (initialised to `0`,
updated by a strict comparison). -/
def maxRange (ops : RealOps) (scan : List Vec3) : ℚ :=
  scan.foldl (fun mx p => if rangeOf ops p > mx then rangeOf ops p else mx) 0

/-- `GetCauchyWeights(scan, residuals, a)` (source lines 104-122), as the
list of diagonal entries of the weight matrix `W`.  Each entry is the Cauchy
weight `1 / (1 + r_i^2 * (1/a^2))` divided by the normalised range
`(range_i - min_range) / (max_range - min_range) + 1`.  The source does not
guard the normalisation: when `max_range - min_range = 0` the IEEE division
`0.0 / 0.0` yields NaN, which we model as `none`. -/
def GetCauchyWeights (ops : RealOps) (scan : List Vec3) (residuals : List ℚ) (a : ℚ) :
    Option (List ℚ) :=
  let c := 1 / a ^ 2
  let w := residuals.map (fun ri => 1 / (1 + ri ^ 2 * c))
  let mn := minRange ops scan
  let mx := maxRange ops scan
  if mx - mn = 0 then none
  else some (List.zipWith (fun wi p => wi / ((rangeOf ops p - mn) / (mx - mn) + 1)) w scan)

/-- Failure modes of a call to `AddScan`:
`numericalError` models `np.linalg.inv` raising `LinAlgError` on a singular
normal-equation matrix; `nanFault` models an IEEE `0.0/0.0` division
producing NaN inside the weight computation (after which the float results
are garbage; the embedding stops there). -/
inductive SMError where
  | numericalError : SMError
  | nanFault : SMError
deriving DecidableEq, Repr

/-- The solver's loop state: working pose estimate `est_pose`, current
residual `vals` and Jacobian `J`, scalar weighted error `err`, last error
change `d_err`, and the iteration counter `num_iter`. -/
structure GNState where
  estPose : Mat3
  vals : List ℚ
  J : List Vec3
  err : ℚ
  dErr : ℚ
  numIter : ℕ
deriving DecidableEq, Repr

/-- Outer product `u * u^T` of a length-3 column vector with itself. -/
def outer (u : Vec3) : Mat3 :=
  ⟨u.x * u.x, u.x * u.y, u.x * u.z,
   u.y * u.x, u.y * u.y, u.y * u.z,
   u.z * u.x, u.z * u.y, u.z * u.z⟩

/-- The weighted normal-equation matrix `J^T W J` with diagonal `W`:
the sum of `w_i * J_i * J_i^T` over the rows of `J`. -/
def normalMat (W : List ℚ) (J : List Vec3) : Mat3 :=
  (J.zip W).foldl (fun A uw => A.add (Mat3.smul uw.2 (outer uw.1))) Mat3.zero

/-- The weighted right-hand side `J^T W r` with diagonal `W`:
the sum of `w_i * r_i * J_i` over the rows of `J`. -/
def rhsVec (W : List ℚ) (J : List Vec3) (r : List ℚ) : Vec3 :=
  (J.zip (W.zip r)).foldl
    (fun v uwr => ⟨v.x + uwr.2.1 * uwr.2.2 * uwr.1.x,
                   v.y + uwr.2.1 * uwr.2.2 * uwr.1.y,
                   v.z + uwr.2.1 * uwr.2.2 * uwr.1.z⟩) ⟨0, 0, 0⟩

/-- The weighted squared error `r^T W r` with diagonal `W`:
the sum of `w_i * r_i^2`. -/
def quadForm (W r : List ℚ) : ℚ :=
  (r.zip W).foldl (fun acc rw => acc + rw.2 * rw.1 ^ 2) 0

/-- All entries of the stacked Jacobian, flattened (the array `np.max`
ranges over). -/
def jacEntries (J : List Vec3) : List ℚ :=
  J.foldr (fun u acc => u.x :: u.y :: u.z :: acc) []

/-- Maximum of a list of rationals (`np.max`); junk value 0 on the empty
list, which the claims never exercise. -/
def listMax : List ℚ → ℚ
  | [] => 0
  | q :: qs => qs.foldl max q

/-- `np.max(J)`: the largest entry of the stacked Jacobian. -/
def maxJ (J : List Vec3) : ℚ := listMax (jacEntries J)

/-- The incremental transform built from `delta_P` (source lines 72-74):
translation components scaled by the map discretization `disc`, rotation
block from `cos`/`sin` of `delta_P[2]`. -/
def deltaPoseMat (ops : RealOps) (disc : ℚ) (dP : Vec3) : Mat3 :=
  ⟨ops.cos dP.z, -ops.sin dP.z, dP.x * disc,
   ops.sin dP.z, ops.cos dP.z, dP.y * disc,
   0, 0, 1⟩

/-- One iteration of the Gauss-Newton loop body (source lines 58-98):
recompute the Cauchy weights from the residual at the start of the
iteration, solve the weighted normal equations (failing when the matrix is
singular), compose the incremental transform onto the working estimate by
right-multiplication, re-evaluate residual and Jacobian at the new pose,
compute the new error with the *same* weights, and advance the estimate
unconditionally. -/
def gnStep (ops : RealOps) (m : SDFMapModel) (scan : List Vec3) (s : GNState) :
    Except SMError GNState :=
  (GetCauchyWeights ops scan s.vals (1 / 20)).elim (Except.error SMError.nanFault)
    (fun W =>
      (inv3 (normalMat W s.J)).elim (Except.error SMError.numericalError)
        (fun Ainv =>
          let dP := Ainv.mulVec (rhsVec W s.J s.vals)
          let newPose := s.estPose.mul (deltaPoseMat ops m.disc dP)
          let rjg := GetResidualAndJacobian m scan newPose
          let newErr := quadForm W rjg.r
          Except.ok ⟨newPose, rjg.r, rjg.J,
                     newErr, s.err - newErr, s.numIter + 1⟩))

/-- The Gauss-Newton `while` loop (source line 56), written with explicit
fuel; `AddScan` supplies fuel `max_iter + 1`, which the guard
`num_iter < max_iter` makes sufficient.  The loop body runs exactly while
`num_iter < max_iter` and `|d_err| > min_d_err` and `np.max(J) > 0`. -/
def gnLoop (ops : RealOps) (m : SDFMapModel) (scan : List Vec3)
    (maxIter : ℕ) (minDErr : ℚ) : ℕ → GNState → Except SMError GNState
  | 0, s => Except.ok s
  | fuel + 1, s =>
    if s.numIter < maxIter ∧ |s.dErr| > minDErr ∧ maxJ s.J > 0 then
      Except.bind (gnStep ops m scan s) (gnLoop ops m scan maxIter minDErr fuel)
    else Except.ok s

/-- The scan matcher's persistent state: the owned pose (`self.pose`) and
the log of `UpdateMap(scan, pose)` fusion calls made on the map collaborator
(most recent first). -/
structure MatcherState where
  pose : Mat3
  fused : List (List Vec3 × Mat3)
deriving DecidableEq, Repr

/-- Everything a completed `AddScan` call leaves behind: the new matcher
state, the solver state at loop exit (internal: its `numIter` and `err` are
only printed by the source), and the Python return value of the method,
which is `None` since `AddScan` has no `return` statement — modelled as an
`Option` of the `(updatedPose, iterationCount, finalError)` triple that the
spec says is returned. -/
structure AddScanResult where
  state : MatcherState
  finalGN : GNState
  retVal : Option (Mat3 × ℕ × ℚ)
deriving DecidableEq, Repr

/-- The solver state entering the loop (source lines 40-52): working
estimate `self.pose @ pose_delta_guess`, residual/Jacobian at that
estimate, initial error `vals^T W vals` with `W` the initial Cauchy
weights, `d_err = 1.0e4`, iteration counter 0. -/
def initGNState (m : SDFMapModel) (st : MatcherState) (scan : List Vec3)
    (guess : Mat3) (W : List ℚ) : GNState :=
  let rjg := GetResidualAndJacobian m scan (st.pose.mul guess)
  ⟨st.pose.mul guess, rjg.r, rjg.J, quadForm W rjg.r, 10000, 0⟩

/-- `AddScan(scan, pose_delta_guess, max_iter, min_d_err)` (source lines
38-102).  Computes the initial estimate, residual, Jacobian, weights and
error; runs the Gauss-Newton loop; on loop exit commits the working
estimate to the owned pose and calls the map collaborator's
`UpdateMap(scan, self.pose)` (modelled as a log entry).  An uncaught
failure (`LinAlgError`, or the modelled NaN fault) aborts the call before
either mutation. -/
def AddScan (ops : RealOps) (m : SDFMapModel) (st : MatcherState) (scan : List Vec3)
    (guess : Mat3) (maxIter : ℕ) (minDErr : ℚ) : Except SMError AddScanResult :=
  let rjg := GetResidualAndJacobian m scan (st.pose.mul guess)
  (GetCauchyWeights ops scan rjg.r (1 / 20)).elim (Except.error SMError.nanFault)
    (fun W =>
      Except.bind (gnLoop ops m scan maxIter minDErr (maxIter + 1) (initGNState m st scan guess W))
        (fun sf =>
          Except.ok ⟨⟨sf.estPose, (scan, sf.estPose) :: st.fused⟩, sf, none⟩))

/-- The rotation-derivative matrix `dR` of the source (lines 139-140),
built from the current pose's rotation entries by the swap/negate pattern
of the derivative of a 2D rotation matrix with respect to its angle. -/
def rotDeriv (pose : Mat3) : Mat2 :=
  ⟨pose.a01, -pose.a00, pose.a00, pose.a01⟩

/-- Application of a 2x2 matrix to a 2D column vector. -/
def Mat2.mulVec2 (M : Mat2) (v : ℚ × ℚ) : ℚ × ℚ :=
  (M.a * v.1 + M.b * v.2, M.c * v.1 + M.d * v.2)

/-- Contraction of a 1x2 gradient with the 2x3 sensitivity matrix
`[I2 | rot]` whose translational block is the identity and whose rotational
column is `rot`: yields the 1x3 Jacobian row
`(g0, g1, g0 * rot0 + g1 * rot1)`. -/
def gradTimesSens (g : ℚ × ℚ) (rot : ℚ × ℚ) : Vec3 :=
  ⟨g.1, g.2, g.1 * rot.1 + g.2 * rot.2⟩

/-- The per-point weight formula of the spec: the Cauchy factor
`1 / (1 + r^2 / a^2)` divided by the point's normalised range. -/
def pointWeight (ops : RealOps) (scan : List Vec3) (a : ℚ) (p : Vec3) (r : ℚ) : ℚ :=
  (1 / (1 + r ^ 2 / a ^ 2)) /
    ((rangeOf ops p - minRange ops scan) / (maxRange ops scan - minRange ops scan) + 1)

/-
  Concrete fixtures used by the witness theorems.  The abstract real-valued
  operations are instantiated with simple computable stand-ins (any
  instantiation is admissible: the claim theorems are generic in `RealOps`).
-/

/-- Concrete `RealOps` instantiation for witnesses. -/
def opsC : RealOps := ⟨fun q => q, fun _ => 1, fun _ => 0⟩

/-- A map whose gradient is zero everywhere (maximally degenerate scan
scenario: the SDF carries no local information). -/
def mzero : SDFMapModel := ⟨1 / 2, fun _ _ => (1, 0, 0)⟩

/-- A map with value `x` and gradient `(1, x)` at `(x, y)`: gives three
independent Jacobian rows on `scanQ`, so the normal matrix is invertible. -/
def mQ : SDFMapModel := ⟨1 / 2, fun x _ => (x, 1, x)⟩

/-- A map with constant gradient `(1, 0)`: on `scanQ` the middle Jacobian
column vanishes, so the normal matrix is singular while `np.max(J) = 1 > 0`. -/
def mS : SDFMapModel := ⟨1 / 2, fun _ _ => (1, 1, 0)⟩

/-- A three-point scan with pairwise distinct ranges `1, 4, 9` under
`opsC` (its `sqrt` stand-in is the identity). -/
def scanQ : List Vec3 := [⟨1, 0, 1⟩, ⟨0, 2, 1⟩, ⟨3, 0, 1⟩]

/-- A two-point scan (fewer than the 3 points the spec requires). -/
def scan2 : List Vec3 := [⟨1, 0, 1⟩, ⟨0, 2, 1⟩]

/-- A three-point scan all of whose points lie at the same range from the
origin (`x^2 + y^2 = 1` for each). -/
def scanEq : List Vec3 := [⟨1, 0, 1⟩, ⟨0, 1, 1⟩, ⟨-1, 0, 1⟩]

/-- Initial matcher state for witnesses: identity pose, no fusion calls. -/
def stC : MatcherState := ⟨Mat3.idm, []⟩

/-- Loop state entering the first iteration of `AddScan opsC mQ stC scanQ`;
values computed by the embedding itself (residual `[1, 0, 3]`, the three
independent Jacobian rows, initial weighted error `10811/2888002`). -/
def s0Q : GNState :=
  ⟨Mat3.idm, [1, 0, 3], [⟨1, 1, 1⟩, ⟨1, 0, -2⟩, ⟨1, 3, 9⟩], 10811 / 2888002, 10000, 0⟩

/-- The loop state after one `gnStep` from `s0Q` (the map value of `mQ`
ignores `y`, so the y-translation step leaves the residual unchanged). -/
def s1Q : GNState :=
  ⟨⟨1, 0, 0, 0, 1, 1 / 2, 0, 0, 1⟩, [1, 0, 3],
   [⟨1, 1, 1⟩, ⟨1, 0, -2⟩, ⟨1, 3, 9⟩], 10811 / 2888002, 0, 1⟩

/-- A loop state whose guard is false (`|dErr| = 0` is not above the
threshold), used to exercise the loop-exit lemma. -/
def sG : GNState := ⟨Mat3.idm, [], [], 0, 0, 0⟩

/-
  Helper lemmas.
-/

theorem exBind_ok {α β ε : Type} (a : α) (f : α → Except ε β) :
    Except.bind (Except.ok a) f = f a := rfl

theorem exBind_err {α β ε : Type} (e : ε) (f : α → Except ε β) :
    Except.bind (Except.error (α := α) e) f = Except.error e := rfl

theorem exBind_ok_inv {α β ε : Type} {x : Except ε α} {f : α → Except ε β} {r : β}
    (h : Except.bind x f = Except.ok r) : ∃ a, x = Except.ok a ∧ f a = Except.ok r := by
  cases x with
  | error e => simp [exBind_err] at h
  | ok a => exact ⟨a, rfl, h⟩

theorem rjg_r_length (m : SDFMapModel) (scan : List Vec3) (pose : Mat3) :
    (GetResidualAndJacobian m scan pose).r.length = scan.length := by
  simp [GetResidualAndJacobian]

theorem rjg_J_length (m : SDFMapModel) (scan : List Vec3) (pose : Mat3) :
    (GetResidualAndJacobian m scan pose).J.length = scan.length := by
  simp [GetResidualAndJacobian]

theorem minFold_le_init (ops : RealOps) (l : List Vec3) (init : ℚ) :
    l.foldl (fun mn p => if rangeOf ops p < mn then rangeOf ops p else mn) init ≤ init := by
  induction l generalizing init with
  | nil => simp
  | cons q t ih =>
    simp only [List.foldl_cons]
    refine le_trans (ih _) ?_
    split_ifs with h
    · exact le_of_lt h
    · exact le_refl _

theorem minRange_le_rangeOf (ops : RealOps) (scan : List Vec3) (p : Vec3) (hp : p ∈ scan) :
    minRange ops scan ≤ rangeOf ops p := by
  unfold minRange
  generalize (10000 : ℚ) = init
  induction scan generalizing init with
  | nil => cases hp
  | cons q t ih =>
    simp only [List.foldl_cons]
    rcases List.mem_cons.mp hp with h | h
    · subst h
      refine le_trans (minFold_le_init ops t _) ?_
      split_ifs with h
      · exact le_refl _
      · exact le_of_not_lt h
    · exact ih h _

theorem maxFold_init_le (ops : RealOps) (l : List Vec3) (init : ℚ) :
    init ≤ l.foldl (fun mx p => if rangeOf ops p > mx then rangeOf ops p else mx) init := by
  induction l generalizing init with
  | nil => simp
  | cons q t ih =>
    simp only [List.foldl_cons]
    refine le_trans ?_ (ih _)
    split_ifs with h
    · exact le_of_lt h
    · exact le_refl _

theorem rangeOf_le_maxRange (ops : RealOps) (scan : List Vec3) (p : Vec3) (hp : p ∈ scan) :
    rangeOf ops p ≤ maxRange ops scan := by
  unfold maxRange
  generalize (0 : ℚ) = init
  induction scan generalizing init with
  | nil => cases hp
  | cons q t ih =>
    simp only [List.foldl_cons]
    rcases List.mem_cons.mp hp with h | h
    · subst h
      refine le_trans ?_ (maxFold_init_le ops t _)
      split_ifs with h
      · exact le_refl _
      · exact le_of_not_lt h
    · exact ih h _

theorem minMaxRange_le (ops : RealOps) (scan : List Vec3) (p : Vec3) (hp : p ∈ scan) :
    minRange ops scan ≤ maxRange ops scan :=
  le_trans (minRange_le_rangeOf ops scan p hp) (rangeOf_le_maxRange ops scan p hp)

theorem minFold_const (ops : RealOps) (l : List Vec3) (v : ℚ)
    (hall : ∀ p ∈ l, rangeOf ops p = v) :
    l.foldl (fun mn p => if rangeOf ops p < mn then rangeOf ops p else mn) v = v := by
  induction l with
  | nil => rfl
  | cons q t ih =>
    simp only [List.foldl_cons]
    rw [hall q (List.mem_cons_self q t), if_neg (lt_irrefl v)]
    exact ih (fun p hp => hall p (List.mem_cons_of_mem q hp))

theorem maxFold_const (ops : RealOps) (l : List Vec3) (v : ℚ)
    (hall : ∀ p ∈ l, rangeOf ops p = v) :
    l.foldl (fun mx p => if rangeOf ops p > mx then rangeOf ops p else mx) v = v := by
  induction l with
  | nil => rfl
  | cons q t ih =>
    simp only [List.foldl_cons]
    rw [hall q (List.mem_cons_self q t), if_neg (lt_irrefl v)]
    exact ih (fun p hp => hall p (List.mem_cons_of_mem q hp))

theorem minRange_allEq (ops : RealOps) (scan : List Vec3) (v : ℚ)
    (hne : scan ≠ []) (hall : ∀ p ∈ scan, rangeOf ops p = v) (hv : v ≤ 10000) :
    minRange ops scan = v := by
  obtain ⟨q, t, rfl⟩ := List.exists_cons_of_ne_nil hne
  unfold minRange
  simp only [List.foldl_cons]
  rw [hall q (List.mem_cons_self q t)]
  have ht : ∀ p ∈ t, rangeOf ops p = v := fun p hp => hall p (List.mem_cons_of_mem q hp)
  rcases lt_or_eq_of_le hv with h | h
  · rw [if_pos h]
    exact minFold_const ops t v ht
  · rw [if_neg (by rw [h]; exact lt_irrefl _), ← h]
    exact minFold_const ops t v ht

theorem maxRange_allEq (ops : RealOps) (scan : List Vec3) (v : ℚ)
    (hne : scan ≠ []) (hall : ∀ p ∈ scan, rangeOf ops p = v) (hv : 0 ≤ v) :
    maxRange ops scan = v := by
  obtain ⟨q, t, rfl⟩ := List.exists_cons_of_ne_nil hne
  unfold maxRange
  simp only [List.foldl_cons]
  rw [hall q (List.mem_cons_self q t)]
  have ht : ∀ p ∈ t, rangeOf ops p = v := fun p hp => hall p (List.mem_cons_of_mem q hp)
  rcases lt_or_eq_of_le hv with h | h
  · rw [if_pos h]
    exact maxFold_const ops t v ht
  · rw [if_neg (by rw [← h]; exact lt_irrefl _), h]
    exact maxFold_const ops t v ht

theorem det3_two_outer (l : List (Vec3 × ℚ)) (h : l.length ≤ 2) :
    det3 (l.foldl (fun A uw => A.add (Mat3.smul uw.2 (outer uw.1))) Mat3.zero) = 0 := by
  match l with
  | [] =>
    simp only [List.foldl_nil]
    simp only [det3, Mat3.zero]
    ring
  | [a] =>
    simp only [List.foldl_cons, List.foldl_nil]
    simp only [det3, Mat3.add, Mat3.smul, Mat3.zero, outer]
    ring
  | [a, b] =>
    simp only [List.foldl_cons, List.foldl_nil]
    simp only [det3, Mat3.add, Mat3.smul, Mat3.zero, outer]
    ring
  | a :: b :: c :: t => simp at h

theorem det3_normalMat_short (W : List ℚ) (J : List Vec3) (h : J.length ≤ 2) :
    det3 (normalMat W J) = 0 := by
  unfold normalMat
  exact det3_two_outer _ (le_trans (by rw [List.length_zip]; exact min_le_left _ _) h)

theorem getCauchyWeights_some (ops : RealOps) (scan : List Vec3) (residuals : List ℚ) (a : ℚ)
    (h : maxRange ops scan - minRange ops scan ≠ 0) :
    GetCauchyWeights ops scan residuals a =
      some (List.zipWith
        (fun wi p => wi /
          ((rangeOf ops p - minRange ops scan) / (maxRange ops scan - minRange ops scan) + 1))
        (residuals.map (fun ri => 1 / (1 + ri ^ 2 * (1 / a ^ 2)))) scan) := by
  simp [GetCauchyWeights, h]

theorem getCauchyWeights_none (ops : RealOps) (scan : List Vec3) (residuals : List ℚ) (a : ℚ)
    (h : maxRange ops scan - minRange ops scan = 0) :
    GetCauchyWeights ops scan residuals a = none := by
  simp [GetCauchyWeights, h]

theorem gnStep_nan (ops : RealOps) (m : SDFMapModel) (scan : List Vec3) (s : GNState)
    (h : GetCauchyWeights ops scan s.vals (1 / 20) = none) :
    gnStep ops m scan s = Except.error SMError.nanFault := by
  unfold gnStep
  rw [h]
  rfl

theorem gnStep_inv_none (ops : RealOps) (m : SDFMapModel) (scan : List Vec3) (s : GNState)
    (W : List ℚ) (hW : GetCauchyWeights ops scan s.vals (1 / 20) = some W)
    (hA : inv3 (normalMat W s.J) = none) :
    gnStep ops m scan s = Except.error SMError.numericalError := by
  unfold gnStep
  rw [hW]
  simp only [Option.elim]
  rw [hA]

theorem gnStep_singular (ops : RealOps) (m : SDFMapModel) (scan : List Vec3) (s : GNState)
    (W : List ℚ) (hW : GetCauchyWeights ops scan s.vals (1 / 20) = some W)
    (hdet : det3 (normalMat W s.J) = 0) :
    gnStep ops m scan s = Except.error SMError.numericalError := by
  refine gnStep_inv_none ops m scan s W hW ?_
  unfold inv3
  rw [if_pos hdet]

theorem gnStep_ok_of (ops : RealOps) (m : SDFMapModel) (scan : List Vec3) (s : GNState)
    (W : List ℚ) (Ainv : Mat3) (hW : GetCauchyWeights ops scan s.vals (1 / 20) = some W)
    (hA : inv3 (normalMat W s.J) = some Ainv) :
    gnStep ops m scan s = Except.ok
      ⟨s.estPose.mul (deltaPoseMat ops m.disc (Ainv.mulVec (rhsVec W s.J s.vals))),
       (GetResidualAndJacobian m scan
         (s.estPose.mul (deltaPoseMat ops m.disc (Ainv.mulVec (rhsVec W s.J s.vals))))).r,
       (GetResidualAndJacobian m scan
         (s.estPose.mul (deltaPoseMat ops m.disc (Ainv.mulVec (rhsVec W s.J s.vals))))).J,
       quadForm W (GetResidualAndJacobian m scan
         (s.estPose.mul (deltaPoseMat ops m.disc (Ainv.mulVec (rhsVec W s.J s.vals))))).r,
       s.err - quadForm W (GetResidualAndJacobian m scan
         (s.estPose.mul (deltaPoseMat ops m.disc (Ainv.mulVec (rhsVec W s.J s.vals))))).r,
       s.numIter + 1⟩ := by
  unfold gnStep
  rw [hW]
  simp only [Option.elim]
  rw [hA]

theorem gnStep_ok_inv (ops : RealOps) (m : SDFMapModel) (scan : List Vec3) (s s' : GNState)
    (h : gnStep ops m scan s = Except.ok s') :
    ∃ W Ainv, GetCauchyWeights ops scan s.vals (1 / 20) = some W ∧
      inv3 (normalMat W s.J) = some Ainv ∧
      s' = ⟨s.estPose.mul (deltaPoseMat ops m.disc (Ainv.mulVec (rhsVec W s.J s.vals))),
        (GetResidualAndJacobian m scan
          (s.estPose.mul (deltaPoseMat ops m.disc (Ainv.mulVec (rhsVec W s.J s.vals))))).r,
        (GetResidualAndJacobian m scan
          (s.estPose.mul (deltaPoseMat ops m.disc (Ainv.mulVec (rhsVec W s.J s.vals))))).J,
        quadForm W (GetResidualAndJacobian m scan
          (s.estPose.mul (deltaPoseMat ops m.disc (Ainv.mulVec (rhsVec W s.J s.vals))))).r,
        s.err - quadForm W (GetResidualAndJacobian m scan
          (s.estPose.mul (deltaPoseMat ops m.disc (Ainv.mulVec (rhsVec W s.J s.vals))))).r,
        s.numIter + 1⟩ := by
  rcases Option.eq_none_or_eq_some (GetCauchyWeights ops scan s.vals (1 / 20)) with hO | ⟨W, hO⟩
  · rw [gnStep_nan ops m scan s hO] at h
    exact absurd h (by simp)
  · rcases Option.eq_none_or_eq_some (inv3 (normalMat W s.J)) with hA | ⟨Ainv, hA⟩
    · rw [gnStep_inv_none ops m scan s W hO hA] at h
      exact absurd h (by simp)
    · rw [gnStep_ok_of ops m scan s W Ainv hO hA] at h
      injection h with h
      exact ⟨W, Ainv, hO, hA, h.symm⟩

theorem gnLoop_guard_false (ops : RealOps) (m : SDFMapModel) (scan : List Vec3)
    (maxIter : ℕ) (minDErr : ℚ) (fuel : ℕ) (s : GNState)
    (h : ¬(s.numIter < maxIter ∧ |s.dErr| > minDErr ∧ maxJ s.J > 0)) :
    gnLoop ops m scan maxIter minDErr fuel s = Except.ok s := by
  cases fuel with
  | zero => rfl
  | succ k => simp [gnLoop, h]

theorem gnLoop_guard_true (ops : RealOps) (m : SDFMapModel) (scan : List Vec3)
    (maxIter : ℕ) (minDErr : ℚ) (fuel : ℕ) (s : GNState)
    (h : s.numIter < maxIter ∧ |s.dErr| > minDErr ∧ maxJ s.J > 0) :
    gnLoop ops m scan maxIter minDErr (fuel + 1) s =
      Except.bind (gnStep ops m scan s) (gnLoop ops m scan maxIter minDErr fuel) := by
  simp [gnLoop, h]

theorem addScan_some_weights (ops : RealOps) (m : SDFMapModel) (st : MatcherState)
    (scan : List Vec3) (guess : Mat3) (maxIter : ℕ) (minDErr : ℚ) (W : List ℚ)
    (hW : GetCauchyWeights ops scan
      (GetResidualAndJacobian m scan (st.pose.mul guess)).r (1 / 20) = some W) :
    AddScan ops m st scan guess maxIter minDErr =
      Except.bind (gnLoop ops m scan maxIter minDErr (maxIter + 1) (initGNState m st scan guess W))
        (fun sf => Except.ok ⟨⟨sf.estPose, (scan, sf.estPose) :: st.fused⟩, sf, none⟩) := by
  unfold AddScan
  dsimp only
  rw [hW]
  rfl

theorem addScan_nan (ops : RealOps) (m : SDFMapModel) (st : MatcherState)
    (scan : List Vec3) (guess : Mat3) (maxIter : ℕ) (minDErr : ℚ)
    (hW : GetCauchyWeights ops scan
      (GetResidualAndJacobian m scan (st.pose.mul guess)).r (1 / 20) = none) :
    AddScan ops m st scan guess maxIter minDErr = Except.error SMError.nanFault := by
  unfold AddScan
  dsimp only
  rw [hW]
  rfl

theorem addScan_ok_inv (ops : RealOps) (m : SDFMapModel) (st : MatcherState)
    (scan : List Vec3) (guess : Mat3) (maxIter : ℕ) (minDErr : ℚ) (r : AddScanResult)
    (h : AddScan ops m st scan guess maxIter minDErr = Except.ok r) :
    ∃ W sf, GetCauchyWeights ops scan
        (GetResidualAndJacobian m scan (st.pose.mul guess)).r (1 / 20) = some W ∧
      gnLoop ops m scan maxIter minDErr (maxIter + 1) (initGNState m st scan guess W) =
        Except.ok sf ∧
      r = ⟨⟨sf.estPose, (scan, sf.estPose) :: st.fused⟩, sf, none⟩ := by
  rcases Option.eq_none_or_eq_some (GetCauchyWeights ops scan
      (GetResidualAndJacobian m scan (st.pose.mul guess)).r (1 / 20)) with hO | ⟨W, hO⟩
  · rw [addScan_nan ops m st scan guess maxIter minDErr hO] at h
    exact absurd h (by simp)
  · rw [addScan_some_weights ops m st scan guess maxIter minDErr W hO] at h
    obtain ⟨sf, hloop, hok⟩ := exBind_ok_inv h
    injection hok with hok
    exact ⟨W, sf, hO, hloop, hok.symm⟩

theorem gnLoop_fuel_stable (ops : RealOps) (m : SDFMapModel) (scan : List Vec3)
    (maxIter : ℕ) (minDErr : ℚ) :
    ∀ (fuel1 fuel2 : ℕ) (s : GNState), maxIter ≤ s.numIter + fuel1 →
      maxIter ≤ s.numIter + fuel2 →
      gnLoop ops m scan maxIter minDErr fuel1 s = gnLoop ops m scan maxIter minDErr fuel2 s := by
  intro fuel1
  induction fuel1 with
  | zero =>
    intro fuel2 s h1 h2
    have hnl : ¬ s.numIter < maxIter := by omega
    have hg : ¬(s.numIter < maxIter ∧ |s.dErr| > minDErr ∧ maxJ s.J > 0) :=
      fun hcon => hnl hcon.1
    rw [gnLoop_guard_false ops m scan maxIter minDErr 0 s hg,
      gnLoop_guard_false ops m scan maxIter minDErr fuel2 s hg]
  | succ k ih =>
    intro fuel2 s h1 h2
    cases fuel2 with
    | zero =>
      have hnl : ¬ s.numIter < maxIter := by omega
      have hg : ¬(s.numIter < maxIter ∧ |s.dErr| > minDErr ∧ maxJ s.J > 0) :=
        fun hcon => hnl hcon.1
      rw [gnLoop_guard_false ops m scan maxIter minDErr (k + 1) s hg,
        gnLoop_guard_false ops m scan maxIter minDErr 0 s hg]
    | succ k2 =>
      by_cases hg : s.numIter < maxIter ∧ |s.dErr| > minDErr ∧ maxJ s.J > 0
      · rw [gnLoop_guard_true ops m scan maxIter minDErr k s hg,
          gnLoop_guard_true ops m scan maxIter minDErr k2 s hg]
        cases hstep : gnStep ops m scan s with
        | error e => rw [exBind_err, exBind_err]
        | ok s2 =>
          rw [exBind_ok, exBind_ok]
          obtain ⟨W, Ainv, hW, hA, hs2⟩ := gnStep_ok_inv ops m scan s s2 hstep
          have hni : s2.numIter = s.numIter + 1 := by rw [hs2]
          exact ih k2 s2 (by omega) (by omega)
      · rw [gnLoop_guard_false ops m scan maxIter minDErr (k + 1) s hg,
          gnLoop_guard_false ops m scan maxIter minDErr (k2 + 1) s hg]

theorem foldl_max_zero (l : List ℚ) (h : ∀ q ∈ l, q = 0) : l.foldl max 0 = 0 := by
  induction l with
  | nil => rfl
  | cons q t ih =>
    simp only [List.foldl_cons]
    rw [h q (List.mem_cons_self q t), max_self]
    exact ih (fun p hp => h p (List.mem_cons_of_mem q hp))

theorem listMax_eq_zero (l : List ℚ) (h : ∀ q ∈ l, q = 0) : listMax l = 0 := by
  cases l with
  | nil => rfl
  | cons q t =>
    unfold listMax
    rw [h q (List.mem_cons_self q t)]
    exact foldl_max_zero t (fun p hp => h p (List.mem_cons_of_mem q hp))

theorem jacEntries_zero (J : List Vec3) (h : ∀ u ∈ J, u = Vec3.mk 0 0 0) :
    ∀ q ∈ jacEntries J, q = 0 := by
  induction J with
  | nil => intro q hq; simp [jacEntries] at hq
  | cons u t ih =>
    intro q hq
    have hu := h u (List.mem_cons_self u t)
    simp only [jacEntries, List.foldr_cons] at hq
    rcases List.mem_cons.mp hq with h1 | hq
    · rw [h1, hu]
    · rcases List.mem_cons.mp hq with h1 | hq
      · rw [h1, hu]
      · rcases List.mem_cons.mp hq with h1 | hq
        · rw [h1, hu]
        · exact ih (fun v hv => h v (List.mem_cons_of_mem u hv)) q hq

theorem rjg_rows_zero (m : SDFMapModel) (scan : List Vec3) (pose : Mat3)
    (hg : ∀ x y : ℚ, (m.query x y).2 = (0, 0)) :
    ∀ u ∈ (GetResidualAndJacobian m scan pose).J, u = Vec3.mk 0 0 0 := by
  intro u hu
  simp only [GetResidualAndJacobian, List.map_map, List.mem_map, Function.comp] at hu
  obtain ⟨p, hp, hu⟩ := hu
  rw [← hu]
  rw [hg (p.x * pose.a00 + p.y * pose.a01 + p.z * pose.a02)
      (p.x * pose.a10 + p.y * pose.a11 + p.z * pose.a12)]
  norm_num

theorem maxJ_zero_of_grads_zero (m : SDFMapModel) (scan : List Vec3) (pose : Mat3)
    (hg : ∀ x y : ℚ, (m.query x y).2 = (0, 0)) :
    maxJ (GetResidualAndJacobian m scan pose).J = 0 :=
  listMax_eq_zero _ (jacEntries_zero _ (rjg_rows_zero m scan pose hg))

theorem minRange_lt_maxRange (ops : RealOps) (scan : List Vec3) (p q : Vec3)
    (hp : p ∈ scan) (hq : q ∈ scan) (hne : rangeOf ops p ≠ rangeOf ops q) :
    minRange ops scan < maxRange ops scan := by
  rcases lt_or_gt_of_ne hne with h | h
  · exact lt_of_le_of_lt (minRange_le_rangeOf ops scan p hp)
      (lt_of_lt_of_le h (rangeOf_le_maxRange ops scan q hq))
  · exact lt_of_le_of_lt (minRange_le_rangeOf ops scan q hq)
      (lt_of_lt_of_le h (rangeOf_le_maxRange ops scan p hp))

theorem normR_pos (ops : RealOps) (scan : List Vec3) (p : Vec3) (hp : p ∈ scan)
    (hlt : minRange ops scan < maxRange ops scan) :
    0 < (rangeOf ops p - minRange ops scan) / (maxRange ops scan - minRange ops scan) + 1 := by
  have h1 : 0 ≤ rangeOf ops p - minRange ops scan :=
    sub_nonneg.mpr (minRange_le_rangeOf ops scan p hp)
  have h2 : 0 < maxRange ops scan - minRange ops scan := sub_pos.mpr hlt
  have h3 := div_nonneg h1 (le_of_lt h2)
  linarith

/-
  Claim theorems.
-/

/-- C3: for every scan and pose, `GetResidualAndJacobian` transforms each
scan point into the map frame as `globalPoint_i = pose · localPoint_i`
(homogeneous multiply), sets `residual_i` to the map's SDF value at that
transformed point, and sets Jacobian row i to the 1x2 map gradient at point
i times the 2x3 sensitivity matrix whose translational block is the 2x2
identity and whose rotational column is the rotation-derivative matrix
(built from the current pose's rotation entries by the swap/negate pattern
of the derivative of a 2D rotation) applied to the point's local (x, y). -/
theorem c3_residual_jacobian (m : SDFMapModel) (scan : List Vec3) (pose : Mat3)
    (i : ℕ) (p : Vec3) (hp : scan[i]? = some p) :
    (GetResidualAndJacobian m scan pose).r[i]? =
      some ((m.query (pose.mulVec p).x (pose.mulVec p).y).1) ∧
    (GetResidualAndJacobian m scan pose).grads[i]? =
      some ((m.query (pose.mulVec p).x (pose.mulVec p).y).2) ∧
    (GetResidualAndJacobian m scan pose).J[i]? =
      some (gradTimesSens ((m.query (pose.mulVec p).x (pose.mulVec p).y).2)
        ((rotDeriv pose).mulVec2 (p.x, p.y))) ∧
    (∀ ca sa tx ty : ℚ,
      rotDeriv ⟨ca, -sa, tx, sa, ca, ty, 0, 0, 1⟩ = ⟨-sa, -ca, ca, -sa⟩) := by
  have hx : p.x * pose.a00 + p.y * pose.a01 + p.z * pose.a02 = (pose.mulVec p).x := by
    simp only [Mat3.mulVec]
    ring
  have hy : p.x * pose.a10 + p.y * pose.a11 + p.z * pose.a12 = (pose.mulVec p).y := by
    simp only [Mat3.mulVec]
    ring
  refine ⟨?_, ?_, ?_, fun ca sa tx ty => rfl⟩
  · simp only [GetResidualAndJacobian, List.map_map, List.getElem?_map, hp,
      Option.map_some', Function.comp]
    rw [hx, hy]
  · simp only [GetResidualAndJacobian, List.map_map, List.getElem?_map, hp,
      Option.map_some', Function.comp]
    rw [hx, hy]
  · simp only [GetResidualAndJacobian, List.map_map, List.getElem?_map, hp,
      Option.map_some', Function.comp]
    rw [hx, hy]
    rfl

/-- C5: for every scan whose points are not all at identical range, each
per-point weight produced by `GetCauchyWeights` equals
`(1 / (1 + residual_i^2 / scale^2)) / normRange_i`; for `residual_i = 0`
the weight equals `1 / normRange_i` exactly, and for a fixed scale and
fixed point the weight is strictly decreasing in `|residual_i|`. -/
theorem c5_cauchy_weights (ops : RealOps) (scan : List Vec3) (residuals : List ℚ) (a : ℚ)
    (ha : a ≠ 0) (p0 q0 : Vec3) (hp0 : p0 ∈ scan) (hq0 : q0 ∈ scan)
    (hne : rangeOf ops p0 ≠ rangeOf ops q0)
    (i : ℕ) (pi : Vec3) (ri : ℚ) (hpi : scan[i]? = some pi) (hri : residuals[i]? = some ri) :
    ∃ ws : List ℚ, GetCauchyWeights ops scan residuals a = some ws ∧
      ws[i]? = some (pointWeight ops scan a pi ri) ∧
      (ri = 0 → ws[i]? = some (1 / ((rangeOf ops pi - minRange ops scan) /
        (maxRange ops scan - minRange ops scan) + 1))) ∧
      (∀ r1 r2 : ℚ, |r1| < |r2| →
        pointWeight ops scan a pi r2 < pointWeight ops scan a pi r1) := by
  have hlt := minRange_lt_maxRange ops scan p0 q0 hp0 hq0 hne
  have hden : maxRange ops scan - minRange ops scan ≠ 0 := ne_of_gt (sub_pos.mpr hlt)
  have hmem : pi ∈ scan := by
    obtain ⟨h, heq⟩ := List.getElem?_eq_some.mp hpi
    rw [← heq]
    exact List.getElem_mem h
  have hval : (List.zipWith
      (fun wi p => wi /
        ((rangeOf ops p - minRange ops scan) / (maxRange ops scan - minRange ops scan) + 1))
      (residuals.map (fun rr => 1 / (1 + rr ^ 2 * (1 / a ^ 2)))) scan)[i]? =
      some (pointWeight ops scan a pi ri) := by
    rw [List.getElem?_zipWith_eq_some]
    refine ⟨1 / (1 + ri ^ 2 * (1 / a ^ 2)), pi, ?_, hpi, ?_⟩
    · rw [List.getElem?_map, hri, Option.map_some']
    · unfold pointWeight
      have : ri ^ 2 * (1 / a ^ 2) = ri ^ 2 / a ^ 2 := by ring
      rw [this]
  refine ⟨_, getCauchyWeights_some ops scan residuals a hden, hval, ?_, ?_⟩
  · intro h0
    rw [hval, h0]
    unfold pointWeight
    norm_num
  · intro r1 r2 h12
    have ha2 : 0 < a ^ 2 := lt_of_le_of_ne (sq_nonneg a) (Ne.symm (pow_ne_zero 2 ha))
    have hr : r1 ^ 2 < r2 ^ 2 := by
      calc r1 ^ 2 = |r1| ^ 2 := (sq_abs r1).symm
        _ < |r2| ^ 2 := by
            exact pow_lt_pow_left₀ h12 (abs_nonneg r1) (by norm_num)
        _ = r2 ^ 2 := sq_abs r2
    have hD1 : 0 < 1 + r1 ^ 2 / a ^ 2 := by positivity
    have hD12 : 1 + r1 ^ 2 / a ^ 2 < 1 + r2 ^ 2 / a ^ 2 := by
      have := (div_lt_div_iff_of_pos_right ha2).mpr hr
      linarith
    have hcau : 1 / (1 + r2 ^ 2 / a ^ 2) < 1 / (1 + r1 ^ 2 / a ^ 2) :=
      one_div_lt_one_div_of_lt hD1 hD12
    have hnorm := normR_pos ops scan pi hmem hlt
    unfold pointWeight
    exact (div_lt_div_iff_of_pos_right hnorm).mpr hcau

/-- C6: the source code is NOT guarded against a scan whose points all lie
at identical range: `max_range - min_range = 0` there, the normalisation
divides `0.0` by `0.0` (NaN in IEEE arithmetic, modelled as `none`), so the
weights are not the finite, well-defined values the spec requires
(`normRange_i = 1`). -/
theorem c6_unguarded_equal_ranges (ops : RealOps) (scan : List Vec3) (residuals : List ℚ)
    (a v : ℚ) (hne : scan ≠ []) (hall : ∀ p ∈ scan, rangeOf ops p = v)
    (h0 : 0 ≤ v) (h4 : v ≤ 10000) :
    GetCauchyWeights ops scan residuals a = none := by
  apply getCauchyWeights_none
  rw [minRange_allEq ops scan v hne hall h4, maxRange_allEq ops scan v hne hall h0]
  exact sub_self v

/-- C1: inside every loop iteration the new weighted error is computed as
`r'ᵀ W r'` with the same weight matrix W computed from the residual at the
start of that iteration (`s.vals`), not from the new residual; the working
estimate is advanced to the new pose unconditionally (no hypothesis
comparing the errors appears: a step that increases the error is accepted
the same way); and on loop exit `AddScan` commits the working estimate to
the owned pose and invokes the map fusion update with the final pose and
the original scan, with no abort/reject path for divergence. -/
theorem c1_stale_weights_unconditional_commit (ops : RealOps) (m : SDFMapModel)
    (scan : List Vec3) :
    (∀ s s2 : GNState, gnStep ops m scan s = Except.ok s2 →
      ∃ W : List ℚ, GetCauchyWeights ops scan s.vals (1 / 20) = some W ∧
        (∃ dP : Vec3, s2.estPose = s.estPose.mul (deltaPoseMat ops m.disc dP)) ∧
        s2.vals = (GetResidualAndJacobian m scan s2.estPose).r ∧
        s2.err = quadForm W s2.vals ∧
        s2.dErr = s.err - s2.err ∧
        s2.numIter = s.numIter + 1)
  ∧ (∀ (st : MatcherState) (guess : Mat3) (maxIter : ℕ) (minDErr : ℚ) (r : AddScanResult),
      AddScan ops m st scan guess maxIter minDErr = Except.ok r →
      r.state.pose = r.finalGN.estPose ∧
      r.state.fused = (scan, r.finalGN.estPose) :: st.fused) := by
  constructor
  · intro s s2 h
    obtain ⟨W, Ainv, hW, hA, hs⟩ := gnStep_ok_inv ops m scan s s2 h
    subst hs
    exact ⟨W, hW, ⟨_, rfl⟩, rfl, rfl, rfl, rfl⟩
  · intro st guess mi mde r h
    obtain ⟨W, sf, hW, hloop, hr⟩ := addScan_ok_inv ops m st scan guess mi mde r h
    subst hr
    exact ⟨rfl, rfl⟩

/-- C2: the Gauss-Newton loop body executes exactly while
`iter < maxIterations` and `|Δerror| > minErrorDelta` and the maximum
Jacobian entry is `> 0`; when the map gradients are identically zero the
Jacobian is identically zero, so the loop body never executes, no
normal-equation solve is attempted, and the call exits immediately via the
gradient guard.  (The third conjunct shows the fuel of the embedded loop is
never the binding constraint: `AddScan` passes `maxIterations + 1`, and any
fuel at least `maxIterations - iter` gives the same result, so the guard
alone decides execution.) -/
theorem c2_loop_guard_zero_gradient (ops : RealOps) (m : SDFMapModel) (st : MatcherState)
    (scan : List Vec3) (guess : Mat3) (maxIter : ℕ) (minDErr : ℚ) :
    (∀ (s : GNState) (fuel : ℕ),
      ¬(s.numIter < maxIter ∧ |s.dErr| > minDErr ∧ maxJ s.J > 0) →
      gnLoop ops m scan maxIter minDErr fuel s = Except.ok s)
  ∧ (∀ (s : GNState) (fuel : ℕ),
      (s.numIter < maxIter ∧ |s.dErr| > minDErr ∧ maxJ s.J > 0) →
      gnLoop ops m scan maxIter minDErr (fuel + 1) s =
        Except.bind (gnStep ops m scan s) (gnLoop ops m scan maxIter minDErr fuel))
  ∧ (∀ (fuel1 fuel2 : ℕ) (s : GNState), maxIter ≤ s.numIter + fuel1 →
      maxIter ≤ s.numIter + fuel2 →
      gnLoop ops m scan maxIter minDErr fuel1 s = gnLoop ops m scan maxIter minDErr fuel2 s)
  ∧ ((∀ x y : ℚ, (m.query x y).2 = (0, 0)) →
      maxRange ops scan - minRange ops scan ≠ 0 →
      ∃ r, AddScan ops m st scan guess maxIter minDErr = Except.ok r ∧
        r.finalGN.numIter = 0 ∧ r.finalGN.estPose = st.pose.mul guess ∧
        r.state.pose = st.pose.mul guess) := by
  refine ⟨fun s fuel h => gnLoop_guard_false ops m scan maxIter minDErr fuel s h,
    fun s fuel h => gnLoop_guard_true ops m scan maxIter minDErr fuel s h,
    gnLoop_fuel_stable ops m scan maxIter minDErr, ?_⟩
  intro hg hden
  obtain ⟨Wv, hW⟩ : ∃ Wv, GetCauchyWeights ops scan
      (GetResidualAndJacobian m scan (st.pose.mul guess)).r (1 / 20) = some Wv :=
    ⟨_, getCauchyWeights_some ops scan
      (GetResidualAndJacobian m scan (st.pose.mul guess)).r (1 / 20) hden⟩
  have hmax : maxJ (GetResidualAndJacobian m scan (st.pose.mul guess)).J = 0 :=
    maxJ_zero_of_grads_zero m scan (st.pose.mul guess) hg
  have hng : ¬((initGNState m st scan guess Wv).numIter < maxIter ∧
      |(initGNState m st scan guess Wv).dErr| > minDErr ∧
      maxJ (initGNState m st scan guess Wv).J > 0) := by
    intro hcon
    have h3 : maxJ (GetResidualAndJacobian m scan (st.pose.mul guess)).J > 0 := hcon.2.2
    rw [hmax] at h3
    exact lt_irrefl 0 h3
  have hloop := gnLoop_guard_false ops m scan maxIter minDErr (maxIter + 1) _ hng
  rw [addScan_some_weights ops m st scan guess maxIter minDErr Wv hW, hloop, exBind_ok]
  exact ⟨_, rfl, rfl, rfl, rfl⟩

/-- C4: the working pose estimate is initialised to
`currentPose · poseDeltaGuess`; each iteration's incremental transform is
built from Δp with the translation components scaled by the map's
discretization unit and a standard 2D rotation block from Δp[2]; and it is
composed by right-multiplication, `newPose = currentEstimate · deltaTransform`,
with Δp the solution `(JᵀWJ)⁻¹ (JᵀW r)` of the weighted normal equations. -/
theorem c4_pose_initialisation_and_update (ops : RealOps) (m : SDFMapModel)
    (st : MatcherState) (scan : List Vec3) (guess : Mat3) :
    (∀ W : List ℚ,
      (initGNState m st scan guess W).estPose = st.pose.mul guess ∧
      (initGNState m st scan guess W).vals =
        (GetResidualAndJacobian m scan (st.pose.mul guess)).r ∧
      (initGNState m st scan guess W).dErr = 10000 ∧
      (initGNState m st scan guess W).numIter = 0)
  ∧ (∀ (dP : Vec3) (disc : ℚ), deltaPoseMat ops disc dP =
      ⟨ops.cos dP.z, -ops.sin dP.z, dP.x * disc,
       ops.sin dP.z, ops.cos dP.z, dP.y * disc, 0, 0, 1⟩)
  ∧ (∀ s s2 : GNState, gnStep ops m scan s = Except.ok s2 →
      ∃ W Ainv, GetCauchyWeights ops scan s.vals (1 / 20) = some W ∧
        inv3 (normalMat W s.J) = some Ainv ∧
        s2.estPose = s.estPose.mul
          (deltaPoseMat ops m.disc (Ainv.mulVec (rhsVec W s.J s.vals)))) := by
  refine ⟨fun W => ⟨rfl, rfl, rfl, rfl⟩, fun dP disc => rfl, ?_⟩
  intro s s2 h
  obtain ⟨W, Ainv, hW, hA, hs⟩ := gnStep_ok_inv ops m scan s s2 h
  subst hs
  exact ⟨W, Ainv, hW, hA, rfl⟩

/-- C7 counterexample: with a two-point scan (fewer than 3 points) and a
zero-gradient map, `AddScan` raises nothing at all: it completes, commits
the initial-guess pose and fuses the scan into the map.  No
`DegenerateInputError` exists in the code and no scan-size check is made. -/
theorem c7_counterexample :
    AddScan opsC mzero stC scan2 Mat3.idm 100 (1 / 100) =
      Except.ok ⟨⟨Mat3.idm, [(scan2, Mat3.idm)]⟩,
        ⟨Mat3.idm, [1, 1], [⟨0, 0, 0⟩, ⟨0, 0, 0⟩], 3 / 802, 10000, 0⟩, none⟩ := by
  norm_num [AddScan, GetResidualAndJacobian, GetCauchyWeights, minRange, maxRange, rangeOf,
    gnLoop, maxJ, jacEntries, listMax, initGNState, quadForm, Mat3.mul, Mat3.idm,
    Option.elim, opsC, mzero, scan2, stC, Except.bind]

/-- C7 (amended): the code performs no scan-size check and defines no
`DegenerateInputError`.  For a scan with fewer than 3 points, whenever the
loop body executes at all, it fails: either the weighting already faults,
or the 3x3 normal matrix assembled from fewer than 3 Jacobian rows is
singular (rank at most 2), so the solve surfaces the inversion error
instead; hence no successful matrix inversion ever happens.  (When the
gradient guard prevents iteration the call completes normally and commits,
as the counterexample shows.) -/
theorem c7_short_scan_no_successful_solve (ops : RealOps) (m : SDFMapModel)
    (scan : List Vec3) (pose : Mat3) (vals : List ℚ) (err dErr : ℚ) (n : ℕ)
    (hs : scan.length < 3) :
    ∃ e, gnStep ops m scan
      ⟨pose, vals, (GetResidualAndJacobian m scan pose).J, err, dErr, n⟩ =
      Except.error e := by
  rcases Option.eq_none_or_eq_some (GetCauchyWeights ops scan vals (1 / 20)) with hO | ⟨W, hO⟩
  · exact ⟨_, gnStep_nan ops m scan _ hO⟩
  · refine ⟨_, gnStep_singular ops m scan _ W hO ?_⟩
    apply det3_normalMat_short
    show (GetResidualAndJacobian m scan pose).J.length ≤ 2
    rw [rjg_J_length]
    omega

/-- C8: whenever the weighted normal-equation matrix `JᵀWJ` is singular at
an executed solve — from any loop state whose guard holds (first conjunct) —
the iteration yields the numerical error (modelling `LinAlgError` from
`np.linalg.inv`) with no retry, and any error reaching the loop exit makes
`AddScan` surface it to the caller immediately with no result state
(second conjunct): the owned pose is not reassigned and the map fusion
update is not invoked, since both happen only on the `Except.ok` path
after the loop. -/
theorem c8_singular_normal_matrix_aborts (ops : RealOps) (m : SDFMapModel)
    (st : MatcherState) (scan : List Vec3) (guess : Mat3) (maxIter : ℕ) (minDErr : ℚ) :
    (∀ (s : GNState) (fuel : ℕ) (W : List ℚ),
      (s.numIter < maxIter ∧ |s.dErr| > minDErr ∧ maxJ s.J > 0) →
      GetCauchyWeights ops scan s.vals (1 / 20) = some W →
      det3 (normalMat W s.J) = 0 →
      gnLoop ops m scan maxIter minDErr (fuel + 1) s =
        Except.error SMError.numericalError)
  ∧ (∀ (W : List ℚ) (e : SMError),
      GetCauchyWeights ops scan
        (GetResidualAndJacobian m scan (st.pose.mul guess)).r (1 / 20) = some W →
      gnLoop ops m scan maxIter minDErr (maxIter + 1) (initGNState m st scan guess W) =
        Except.error e →
      AddScan ops m st scan guess maxIter minDErr = Except.error e ∧
      ∀ r : AddScanResult, AddScan ops m st scan guess maxIter minDErr ≠ Except.ok r) := by
  constructor
  · intro s fuel W hguard hW hdet
    rw [gnLoop_guard_true ops m scan maxIter minDErr fuel s hguard,
      gnStep_singular ops m scan s W hW hdet, exBind_err]
  · intro W e hW hloop
    have h1 : AddScan ops m st scan guess maxIter minDErr = Except.error e := by
      rw [addScan_some_weights ops m st scan guess maxIter minDErr W hW, hloop, exBind_err]
    exact ⟨h1, fun r hr => by rw [h1] at hr; exact absurd hr (by simp)⟩

/-- C9 counterexample: a successful concrete `AddScan` call returns `None`
(the Python method has no return statement), not the
`(updatedPose, iterationCount, finalError)` triple the spec promises. -/
theorem c9_counterexample :
    Except.map AddScanResult.retVal (AddScan opsC mzero stC scanQ Mat3.idm 100 (1 / 100)) =
      Except.ok none := by
  norm_num [AddScan, GetResidualAndJacobian, GetCauchyWeights, minRange, maxRange, rangeOf,
    gnLoop, maxJ, jacEntries, listMax, initGNState, quadForm, Mat3.mul, Mat3.idm,
    Option.elim, opsC, mzero, scanQ, stC, Except.map, Except.bind]

/-- C9 (amended): every successful `AddScan` call returns no value (its
Python return value is `None`); the updated pose is committed to the owned
pose field and the scan is fused at that pose, while the iteration count
and final error remain internal to the call (merely printed). -/
theorem c9_no_return_value (ops : RealOps) (m : SDFMapModel) (st : MatcherState)
    (scan : List Vec3) (guess : Mat3) (maxIter : ℕ) (minDErr : ℚ) (r : AddScanResult)
    (h : AddScan ops m st scan guess maxIter minDErr = Except.ok r) :
    r.retVal = none ∧ r.state.pose = r.finalGN.estPose ∧
    r.state.fused = (scan, r.finalGN.estPose) :: st.fused := by
  obtain ⟨W, sf, hW, hloop, hr⟩ := addScan_ok_inv ops m st scan guess maxIter minDErr r h
  subst hr
  exact ⟨rfl, rfl, rfl⟩

/-- C10: even when the Gauss-Newton loop body executes zero times (the
guard is false at entry, e.g. because every Jacobian entry is ≤ 0 or the
iteration budget is 0), `AddScan` still commits the pose
`previousPose · poseDeltaGuess` and still fuses the scan into the map at
that committed pose, with the iteration counter still 0. -/
theorem c10_zero_iterations_still_commits (ops : RealOps) (m : SDFMapModel)
    (st : MatcherState) (scan : List Vec3) (guess : Mat3) (maxIter : ℕ) (minDErr : ℚ)
    (hden : maxRange ops scan - minRange ops scan ≠ 0)
    (hguard : ¬(0 < maxIter ∧ |(10000 : ℚ)| > minDErr ∧
      maxJ (GetResidualAndJacobian m scan (st.pose.mul guess)).J > 0)) :
    ∃ r, AddScan ops m st scan guess maxIter minDErr = Except.ok r ∧
      r.state.pose = st.pose.mul guess ∧
      r.state.fused = (scan, st.pose.mul guess) :: st.fused ∧
      r.finalGN.numIter = 0 ∧ r.retVal = none := by
  obtain ⟨Wv, hW⟩ : ∃ Wv, GetCauchyWeights ops scan
      (GetResidualAndJacobian m scan (st.pose.mul guess)).r (1 / 20) = some Wv :=
    ⟨_, getCauchyWeights_some ops scan
      (GetResidualAndJacobian m scan (st.pose.mul guess)).r (1 / 20) hden⟩
  have hng : ¬((initGNState m st scan guess Wv).numIter < maxIter ∧
      |(initGNState m st scan guess Wv).dErr| > minDErr ∧
      maxJ (initGNState m st scan guess Wv).J > 0) := hguard
  have hloop := gnLoop_guard_false ops m scan maxIter minDErr (maxIter + 1) _ hng
  rw [addScan_some_weights ops m st scan guess maxIter minDErr Wv hW, hloop, exBind_ok]
  exact ⟨_, rfl, rfl, rfl, rfl, rfl⟩

/-
  Witness theorems: each applies its claim theorem at a concrete input,
  discharging every hypothesis there.
-/

/-- C1 witness: a concrete successful step and a concrete successful call,
fed to the claim theorem. -/
theorem c1_witness :
    gnStep opsC mQ scanQ s0Q = Except.ok s1Q ∧
    (∃ W, GetCauchyWeights opsC scanQ s0Q.vals (1 / 20) = some W ∧
      s1Q.err = quadForm W s1Q.vals ∧ s1Q.dErr = s0Q.err - s1Q.err ∧
      s1Q.numIter = s0Q.numIter + 1) ∧
    (∃ r, AddScan opsC mzero stC scanQ Mat3.idm 100 (1 / 100) = Except.ok r ∧
      r.state.pose = r.finalGN.estPose ∧
      r.state.fused = (scanQ, r.finalGN.estPose) :: stC.fused) := by
  have hstep : gnStep opsC mQ scanQ s0Q = Except.ok s1Q := by
    norm_num [gnStep, GetCauchyWeights, GetResidualAndJacobian, minRange, maxRange, rangeOf,
      quadForm, inv3, det3, normalMat, rhsVec, outer, Mat3.add, Mat3.smul, Mat3.zero,
      Mat3.mul, Mat3.mulVec, Mat3.idm, deltaPoseMat, Option.elim, opsC, mQ, scanQ, s0Q, s1Q]
  have hadd : AddScan opsC mzero stC scanQ Mat3.idm 100 (1 / 100) =
      Except.ok ⟨⟨Mat3.idm, [(scanQ, Mat3.idm)]⟩,
        ⟨Mat3.idm, [1, 1, 1], [⟨0, 0, 0⟩, ⟨0, 0, 0⟩, ⟨0, 0, 0⟩], 49 / 8822, 10000, 0⟩,
        none⟩ := by
    norm_num [AddScan, GetResidualAndJacobian, GetCauchyWeights, minRange, maxRange, rangeOf,
      gnLoop, maxJ, jacEntries, listMax, initGNState, quadForm, Mat3.mul, Mat3.idm,
      Option.elim, opsC, mzero, scanQ, stC, Except.bind]
  obtain ⟨W, hW, hdp, hvals, herr, hder, hni⟩ :=
    (c1_stale_weights_unconditional_commit opsC mQ scanQ).1 s0Q s1Q hstep
  refine ⟨hstep, ⟨W, hW, herr, hder, hni⟩, ⟨_, hadd, ?_⟩⟩
  exact (c1_stale_weights_unconditional_commit opsC mzero scanQ).2 stC Mat3.idm 100 (1 / 100)
    _ hadd

/-- C2 witness: the guard-false exit at a concrete state, and a concrete
zero-gradient call that exits immediately via the gradient guard. -/
theorem c2_witness :
    (¬(sG.numIter < 100 ∧ |sG.dErr| > 1 / 100 ∧ maxJ sG.J > 0) ∧
      gnLoop opsC mzero scanQ 100 (1 / 100) 7 sG = Except.ok sG) ∧
    (gnLoop opsC mzero scanQ 100 (1 / 100) 101 sG =
      gnLoop opsC mzero scanQ 100 (1 / 100) 102 sG) ∧
    ((∀ x y : ℚ, (mzero.query x y).2 = (0, 0)) ∧
      maxRange opsC scanQ - minRange opsC scanQ ≠ 0 ∧
      ∃ r, AddScan opsC mzero stC scanQ Mat3.idm 100 (1 / 100) = Except.ok r ∧
        r.finalGN.numIter = 0 ∧ r.finalGN.estPose = stC.pose.mul Mat3.idm ∧
        r.state.pose = stC.pose.mul Mat3.idm) := by
  have h1 : ¬(sG.numIter < 100 ∧ |sG.dErr| > 1 / 100 ∧ maxJ sG.J > 0) := by
    norm_num [sG, maxJ, jacEntries, listMax]
  have hg : ∀ x y : ℚ, (mzero.query x y).2 = (0, 0) := fun x y => rfl
  have hden : maxRange opsC scanQ - minRange opsC scanQ ≠ 0 := by
    norm_num [maxRange, minRange, rangeOf, opsC, scanQ]
  exact ⟨⟨h1, (c2_loop_guard_zero_gradient opsC mzero stC scanQ Mat3.idm 100 (1 / 100)).1
      sG 7 h1⟩,
    (c2_loop_guard_zero_gradient opsC mzero stC scanQ Mat3.idm 100 (1 / 100)).2.2.1
      101 102 sG (by norm_num [sG]) (by norm_num [sG]),
    hg, hden,
    (c2_loop_guard_zero_gradient opsC mzero stC scanQ Mat3.idm 100 (1 / 100)).2.2.2 hg hden⟩

/-- C3 witness: the first point of the concrete scan, with the residual and
Jacobian row evaluated. -/
theorem c3_witness :
    scanQ[0]? = some (Vec3.mk 1 0 1) ∧
    (GetResidualAndJacobian mQ scanQ Mat3.idm).r[0]? = some 1 ∧
    (GetResidualAndJacobian mQ scanQ Mat3.idm).J[0]? = some ⟨1, 1, 1⟩ := by
  have hp : scanQ[0]? = some (Vec3.mk 1 0 1) := by norm_num [scanQ]
  obtain ⟨h1, h2, h3, h4⟩ := c3_residual_jacobian mQ scanQ Mat3.idm 0 ⟨1, 0, 1⟩ hp
  refine ⟨hp, ?_, ?_⟩
  · rw [h1]
    norm_num [mQ, Mat3.mulVec, Mat3.idm]
  · rw [h3]
    norm_num [mQ, Mat3.mulVec, Mat3.idm, gradTimesSens, rotDeriv, Mat2.mulVec2]

/-- C4 witness: initialisation at a concrete state and a concrete solved
step, fed to the claim theorem. -/
theorem c4_witness :
    (initGNState mQ stC scanQ Mat3.idm []).estPose = stC.pose.mul Mat3.idm ∧
    gnStep opsC mQ scanQ s0Q = Except.ok s1Q ∧
    (∃ W Ainv, GetCauchyWeights opsC scanQ s0Q.vals (1 / 20) = some W ∧
      inv3 (normalMat W s0Q.J) = some Ainv ∧
      s1Q.estPose = s0Q.estPose.mul
        (deltaPoseMat opsC mQ.disc (Ainv.mulVec (rhsVec W s0Q.J s0Q.vals)))) := by
  have hstep : gnStep opsC mQ scanQ s0Q = Except.ok s1Q := by
    norm_num [gnStep, GetCauchyWeights, GetResidualAndJacobian, minRange, maxRange, rangeOf,
      quadForm, inv3, det3, normalMat, rhsVec, outer, Mat3.add, Mat3.smul, Mat3.zero,
      Mat3.mul, Mat3.mulVec, Mat3.idm, deltaPoseMat, Option.elim, opsC, mQ, scanQ, s0Q, s1Q]
  exact ⟨((c4_pose_initialisation_and_update opsC mQ stC scanQ Mat3.idm).1 []).1, hstep,
    (c4_pose_initialisation_and_update opsC mQ stC scanQ Mat3.idm).2.2 s0Q s1Q hstep⟩

/-- C5 witness: the concrete scan with distinct ranges, point 1 and
residual 1, fed to the claim theorem. -/
theorem c5_witness :
    (1 / 20 : ℚ) ≠ 0 ∧ Vec3.mk 1 0 1 ∈ scanQ ∧ Vec3.mk 0 2 1 ∈ scanQ ∧
    rangeOf opsC ⟨1, 0, 1⟩ ≠ rangeOf opsC ⟨0, 2, 1⟩ ∧
    scanQ[1]? = some (Vec3.mk 0 2 1) ∧ ([0, 1, 3] : List ℚ)[1]? = some 1 ∧
    (∃ ws : List ℚ, GetCauchyWeights opsC scanQ [0, 1, 3] (1 / 20) = some ws ∧
      ws[1]? = some (pointWeight opsC scanQ (1 / 20) ⟨0, 2, 1⟩ 1) ∧
      ((1 : ℚ) = 0 → ws[1]? = some (1 / ((rangeOf opsC ⟨0, 2, 1⟩ - minRange opsC scanQ) /
        (maxRange opsC scanQ - minRange opsC scanQ) + 1))) ∧
      (∀ r1 r2 : ℚ, |r1| < |r2| →
        pointWeight opsC scanQ (1 / 20) ⟨0, 2, 1⟩ r2 <
          pointWeight opsC scanQ (1 / 20) ⟨0, 2, 1⟩ r1)) := by
  have ha : (1 / 20 : ℚ) ≠ 0 := by norm_num
  have hp0 : Vec3.mk 1 0 1 ∈ scanQ := by simp [scanQ]
  have hq0 : Vec3.mk 0 2 1 ∈ scanQ := by simp [scanQ]
  have hne : rangeOf opsC ⟨1, 0, 1⟩ ≠ rangeOf opsC ⟨0, 2, 1⟩ := by
    norm_num [rangeOf, opsC]
  have hpi : scanQ[1]? = some (Vec3.mk 0 2 1) := by norm_num [scanQ]
  have hri : ([0, 1, 3] : List ℚ)[1]? = some 1 := by norm_num
  exact ⟨ha, hp0, hq0, hne, hpi, hri,
    c5_cauchy_weights opsC scanQ [0, 1, 3] (1 / 20) ha (Vec3.mk 1 0 1) (Vec3.mk 0 2 1)
      hp0 hq0 hne 1 (Vec3.mk 0 2 1) 1 hpi hri⟩

/-- C6 witness: three concrete points all at range 1, fed to the claim
theorem: the weight computation faults. -/
theorem c6_witness :
    scanEq ≠ [] ∧ (∀ p ∈ scanEq, rangeOf opsC p = 1) ∧
    (0 : ℚ) ≤ 1 ∧ (1 : ℚ) ≤ 10000 ∧
    GetCauchyWeights opsC scanEq [1, 2, 3] (1 / 20) = none := by
  have h1 : scanEq ≠ [] := by simp [scanEq]
  have h2 : ∀ p ∈ scanEq, rangeOf opsC p = 1 := by
    intro p hp
    simp only [scanEq, List.mem_cons, List.not_mem_nil, or_false] at hp
    rcases hp with h | h | h <;> (subst h; norm_num [rangeOf, opsC])
  exact ⟨h1, h2, by norm_num, by norm_num,
    c6_unguarded_equal_ranges opsC scanEq [1, 2, 3] (1 / 20) 1 h1 h2 (by norm_num)
      (by norm_num)⟩

/-- C7 witness: the two-point scan fed to the amended claim theorem: the
loop body fails when it executes. -/
theorem c7_witness :
    scan2.length < 3 ∧
    ∃ e, gnStep opsC mzero scan2
      ⟨Mat3.idm, [1, 1], (GetResidualAndJacobian mzero scan2 Mat3.idm).J, 0, 0, 0⟩ =
      Except.error e :=
  ⟨by norm_num [scan2],
    c7_short_scan_no_successful_solve opsC mzero scan2 Mat3.idm [1, 1] 0 0 0
      (by norm_num [scan2])⟩

/-- C8 witness: a constant-gradient map on the concrete scan produces a
singular normal matrix while the gradient guard holds; the iteration
errors and the call aborts with the numerical error. -/
theorem c8_witness :
    GetCauchyWeights opsC scanQ
        (GetResidualAndJacobian mS scanQ (stC.pose.mul Mat3.idm)).r (1 / 20) =
      some [1 / 401, 8 / 4411, 1 / 802] ∧
    ((initGNState mS stC scanQ Mat3.idm [1 / 401, 8 / 4411, 1 / 802]).numIter < 100 ∧
      |(initGNState mS stC scanQ Mat3.idm [1 / 401, 8 / 4411, 1 / 802]).dErr| > 1 / 100 ∧
      maxJ (initGNState mS stC scanQ Mat3.idm [1 / 401, 8 / 4411, 1 / 802]).J > 0) ∧
    det3 (normalMat [1 / 401, 8 / 4411, 1 / 802]
      (GetResidualAndJacobian mS scanQ (stC.pose.mul Mat3.idm)).J) = 0 ∧
    AddScan opsC mS stC scanQ Mat3.idm 100 (1 / 100) =
      Except.error SMError.numericalError := by
  have hW : GetCauchyWeights opsC scanQ
      (GetResidualAndJacobian mS scanQ (stC.pose.mul Mat3.idm)).r (1 / 20) =
      some [1 / 401, 8 / 4411, 1 / 802] := by
    norm_num [GetCauchyWeights, GetResidualAndJacobian, minRange, maxRange, rangeOf,
      Mat3.mul, Mat3.idm, opsC, mS, scanQ, stC]
  have hmax : maxJ (GetResidualAndJacobian mS scanQ (stC.pose.mul Mat3.idm)).J > 0 := by
    norm_num [maxJ, jacEntries, listMax, GetResidualAndJacobian, Mat3.mul, Mat3.idm,
      mS, scanQ, stC, max_def]
  have hdet : det3 (normalMat [1 / 401, 8 / 4411, 1 / 802]
      (GetResidualAndJacobian mS scanQ (stC.pose.mul Mat3.idm)).J) = 0 := by
    norm_num [det3, normalMat, outer, Mat3.add, Mat3.smul, Mat3.zero,
      GetResidualAndJacobian, Mat3.mul, Mat3.idm, mS, scanQ, stC]
  have hguard : (initGNState mS stC scanQ Mat3.idm [1 / 401, 8 / 4411, 1 / 802]).numIter < 100 ∧
      |(initGNState mS stC scanQ Mat3.idm [1 / 401, 8 / 4411, 1 / 802]).dErr| > 1 / 100 ∧
      maxJ (initGNState mS stC scanQ Mat3.idm [1 / 401, 8 / 4411, 1 / 802]).J > 0 :=
    ⟨by norm_num [initGNState], by norm_num [initGNState], hmax⟩
  have hloop := (c8_singular_normal_matrix_aborts opsC mS stC scanQ Mat3.idm 100 (1 / 100)).1
    (initGNState mS stC scanQ Mat3.idm [1 / 401, 8 / 4411, 1 / 802]) 100
    [1 / 401, 8 / 4411, 1 / 802] hguard hW hdet
  exact ⟨hW, hguard, hdet,
    ((c8_singular_normal_matrix_aborts opsC mS stC scanQ Mat3.idm 100 (1 / 100)).2
      [1 / 401, 8 / 4411, 1 / 802] SMError.numericalError hW hloop).1⟩

/-- C9 witness: a concrete successful call fed to the amended claim
theorem: the return value is `None`, the pose is committed, the scan
fused. -/
theorem c9_witness :
    ∃ r, AddScan opsC mzero stC scanQ Mat3.idm 100 (1 / 100) = Except.ok r ∧
      r.retVal = none ∧ r.state.pose = r.finalGN.estPose ∧
      r.state.fused = (scanQ, r.finalGN.estPose) :: stC.fused := by
  have hadd : AddScan opsC mzero stC scanQ Mat3.idm 100 (1 / 100) =
      Except.ok ⟨⟨Mat3.idm, [(scanQ, Mat3.idm)]⟩,
        ⟨Mat3.idm, [1, 1, 1], [⟨0, 0, 0⟩, ⟨0, 0, 0⟩, ⟨0, 0, 0⟩], 49 / 8822, 10000, 0⟩,
        none⟩ := by
    norm_num [AddScan, GetResidualAndJacobian, GetCauchyWeights, minRange, maxRange, rangeOf,
      gnLoop, maxJ, jacEntries, listMax, initGNState, quadForm, Mat3.mul, Mat3.idm,
      Option.elim, opsC, mzero, scanQ, stC, Except.bind]
  exact ⟨_, hadd,
    c9_no_return_value opsC mzero stC scanQ Mat3.idm 100 (1 / 100) _ hadd⟩

/-- C10 witness: a zero iteration budget makes the guard false at entry;
the call still commits the initial-guess pose and fuses the scan. -/
theorem c10_witness :
    maxRange opsC scanQ - minRange opsC scanQ ≠ 0 ∧
    ¬(0 < 0 ∧ |(10000 : ℚ)| > 1 / 100 ∧
      maxJ (GetResidualAndJacobian mQ scanQ (stC.pose.mul Mat3.idm)).J > 0) ∧
    (∃ r, AddScan opsC mQ stC scanQ Mat3.idm 0 (1 / 100) = Except.ok r ∧
      r.state.pose = stC.pose.mul Mat3.idm ∧
      r.state.fused = (scanQ, stC.pose.mul Mat3.idm) :: stC.fused ∧
      r.finalGN.numIter = 0 ∧ r.retVal = none) := by
  have hden : maxRange opsC scanQ - minRange opsC scanQ ≠ 0 := by
    norm_num [maxRange, minRange, rangeOf, opsC, scanQ]
  have hguard : ¬(0 < 0 ∧ |(10000 : ℚ)| > 1 / 100 ∧
      maxJ (GetResidualAndJacobian mQ scanQ (stC.pose.mul Mat3.idm)).J > 0) := by
    intro hcon
    exact lt_irrefl 0 hcon.1
  exact ⟨hden, hguard,
    c10_zero_iterations_still_commits opsC mQ stC scanQ Mat3.idm 0 (1 / 100) hden hguard⟩

end SDFSM
